import Mathlib

/-
  Verification of the BillTracker / InvoiceNinja storage core.

  Shallow embedding of src/shared/schema.ts (table row types) and
  src/server/storage.ts (DatabaseStorage methods) plus the relevant route
  handlers of src/server/routes.ts.  The relational store is modelled as
  explicit lists of rows with per-table serial counters; decimal(_,2)
  columns (stored as strings in the source and read back with parseFloat)
  are modelled exactly as integers counting hundredths of the currency
  unit -- the server only adds, subtracts and compares these values, and
  those operations are closed over that representation; timestamps are
  integers.  SQL SELECT ... WHERE
  on a primary key is List.find?, WHERE filters are List.filter, UPDATE is
  a guarded List.map, DELETE is List.filter with the negated condition, and
  ORDER BY ... DESC LIMIT 10 is an insertion sort followed by List.take.
-/

namespace BillTracker

/-- Row of the clients table (shared/schema.ts). -/
structure Client where
  id : Nat
  companyId : Nat
  name : String
  email : String
  phone : Option String := none
  address : Option String := none
deriving DecidableEq

/-- Row of the invoices table (shared/schema.ts). -/
structure Invoice where
  id : Nat
  companyId : Nat
  number : String
  clientId : Nat
  status : String
  subtotal : Int
  taxRate : Int
  taxAmount : Int
  total : Int
  dueDate : Int
  createdAt : Int
deriving DecidableEq

/-- Row of the invoice_items table (shared/schema.ts). -/
structure InvoiceItem where
  id : Nat
  invoiceId : Nat
  description : String
  quantity : Int
  rate : Int
  amount : Int
deriving DecidableEq

/-- Row of the payments table (shared/schema.ts). -/
structure Payment where
  id : Nat
  invoiceId : Nat
  amount : Int
  paymentDate : Int
  notes : Option String := none
deriving DecidableEq

/-- Row of the settings table (shared/schema.ts). -/
structure CompanySettings where
  id : Nat
  companyId : Nat
  companyName : String
  email : String
  phone : Option String := none
  address : Option String := none
  currency : String
  defaultTaxRate : Int
  logoUrl : Option String := none
deriving DecidableEq

/-- The relational store: one list of rows per table plus the serial
counters that produce fresh primary keys. -/
structure DB where
  clients : List Client := []
  invoices : List Invoice := []
  invoiceItems : List InvoiceItem := []
  payments : List Payment := []
  settingsRows : List CompanySettings := []
  nextClientId : Nat := 1
  nextInvoiceId : Nat := 1
  nextItemId : Nat := 1
  nextPaymentId : Nat := 1
  nextSettingsId : Nat := 1
deriving DecidableEq

/-- Well-formedness of a store: primary keys are unique per table and
invoice ids are positive (serial columns start at 1).  Positivity matters
because getPayments mirrors a JS truthiness test on the invoiceId filter. -/
def DB.WF (db : DB) : Prop :=
  (db.clients.map (fun c => c.id)).Nodup ∧
  (db.invoices.map (fun i => i.id)).Nodup ∧
  ∀ i ∈ db.invoices, 0 < i.id

instance (db : DB) : Decidable db.WF := by
  unfold DB.WF; infer_instance

/-- InsertClient = drizzle-zod insert schema for clients (id omitted). -/
structure InsertClient where
  companyId : Nat
  name : String
  email : String
  phone : Option String := none
  address : Option String := none
deriving DecidableEq

/-- Partial InsertClient as accepted by updateClient: absent fields are
left unchanged by the SQL SET clause. -/
structure ClientUpdate where
  companyId : Option Nat := none
  name : Option String := none
  email : Option String := none
  phone : Option (Option String) := none
  address : Option (Option String) := none
deriving DecidableEq

def applyClientUpdate (u : ClientUpdate) (c : Client) : Client :=
  { c with
    companyId := u.companyId.getD c.companyId
    name := u.name.getD c.name
    email := u.email.getD c.email
    phone := u.phone.getD c.phone
    address := u.address.getD c.address }

/-- InsertInvoice = drizzle-zod insert schema for invoices (id, createdAt
omitted; columns with a database default are optional). -/
structure InsertInvoice where
  companyId : Nat
  number : String
  clientId : Nat
  status : Option String := none
  subtotal : Int
  taxRate : Option Int := none
  taxAmount : Option Int := none
  total : Int
  dueDate : Int
deriving DecidableEq

/-- Partial InsertInvoice as accepted by updateInvoice. -/
structure InvoiceUpdate where
  companyId : Option Nat := none
  number : Option String := none
  clientId : Option Nat := none
  status : Option String := none
  subtotal : Option Int := none
  taxRate : Option Int := none
  taxAmount : Option Int := none
  total : Option Int := none
  dueDate : Option Int := none
deriving DecidableEq

def applyInvoiceUpdate (u : InvoiceUpdate) (i : Invoice) : Invoice :=
  { i with
    companyId := u.companyId.getD i.companyId
    number := u.number.getD i.number
    clientId := u.clientId.getD i.clientId
    status := u.status.getD i.status
    subtotal := u.subtotal.getD i.subtotal
    taxRate := u.taxRate.getD i.taxRate
    taxAmount := u.taxAmount.getD i.taxAmount
    total := u.total.getD i.total
    dueDate := u.dueDate.getD i.dueDate }

/-- InsertInvoiceItem = drizzle-zod insert schema for invoice items
(id and invoiceId omitted; invoiceId is set by createInvoice). -/
structure InsertInvoiceItem where
  description : String
  quantity : Int
  rate : Int
  amount : Int
deriving DecidableEq

/-- InsertPayment = drizzle-zod insert schema for payments (id and
paymentDate omitted; paymentDate defaults to now). -/
structure InsertPayment where
  invoiceId : Nat
  amount : Int
  notes : Option String := none
deriving DecidableEq

/-- Partial InsertSettings as accepted by updateSettings. -/
structure SettingsUpdate where
  companyId : Option Nat := none
  companyName : Option String := none
  email : Option String := none
  phone : Option (Option String) := none
  address : Option (Option String) := none
  currency : Option String := none
  defaultTaxRate : Option Int := none
  logoUrl : Option (Option String) := none
deriving DecidableEq

/-! Storage operations, translated from src/server/storage.ts. -/

/-- DatabaseStorage.getClients: SELECT clients WHERE companyId = c. -/
def getClients (db : DB) (companyId : Nat) : List Client :=
  db.clients.filter (fun c => c.companyId == companyId)

/-- DatabaseStorage.getClient: SELECT clients WHERE id AND companyId. -/
def getClient (db : DB) (id companyId : Nat) : Option Client :=
  db.clients.find? (fun c => c.id == id && c.companyId == companyId)

/-- DatabaseStorage.createClient: INSERT with a fresh serial id. -/
def createClient (db : DB) (ic : InsertClient) : Client × DB :=
  let c : Client :=
    { id := db.nextClientId, companyId := ic.companyId, name := ic.name,
      email := ic.email, phone := ic.phone, address := ic.address }
  (c, { db with clients := db.clients ++ [c], nextClientId := db.nextClientId + 1 })

/-- DatabaseStorage.updateClient: UPDATE ... WHERE id AND companyId
RETURNING; the handler reads the first returned row or undefined. -/
def updateClient (db : DB) (id : Nat) (u : ClientUpdate) (companyId : Nat) :
    Option Client × DB :=
  match db.clients.find? (fun c => c.id == id && c.companyId == companyId) with
  | none => (none, db)
  | some c =>
      (some (applyClientUpdate u c),
       { db with clients := db.clients.map (fun x =>
           if x.id == id && x.companyId == companyId then applyClientUpdate u x else x) })

/-- DatabaseStorage.deleteClient: DELETE ... WHERE id AND companyId,
returning rowCount > 0. -/
def deleteClient (db : DB) (id companyId : Nat) : Bool × DB :=
  (db.clients.any (fun c => c.id == id && c.companyId == companyId),
   { db with clients := db.clients.filter (fun c =>
       !(c.id == id && c.companyId == companyId)) })

/-- DatabaseStorage.getInvoices: SELECT invoices LEFT JOIN clients WHERE
companyId = c, each row paired with its (possibly missing) client. -/
def getInvoices (db : DB) (companyId : Nat) : List (Invoice × Option Client) :=
  (db.invoices.filter (fun i => i.companyId == companyId)).map (fun i =>
    (i, db.clients.find? (fun cl => cl.id == i.clientId)))

/-- DatabaseStorage.getInvoiceItems: SELECT invoice_items WHERE invoiceId. -/
def getInvoiceItems (db : DB) (invoiceId : Nat) : List InvoiceItem :=
  db.invoiceItems.filter (fun it => it.invoiceId == invoiceId)

/-- DatabaseStorage.getInvoice: SELECT invoices LEFT JOIN clients WHERE id
AND companyId, then the items of that invoice. -/
def getInvoice (db : DB) (id companyId : Nat) :
    Option (Invoice × Option Client × List InvoiceItem) :=
  match db.invoices.find? (fun i => i.id == id && i.companyId == companyId) with
  | none => none
  | some i =>
      some (i, db.clients.find? (fun cl => cl.id == i.clientId), getInvoiceItems db id)

/-- The for-loop of DatabaseStorage.createInvoice that inserts each item
with invoiceId set to the new invoice id, consuming serial item ids. -/
def insertItemsLoop (invoiceId : Nat) (items : List InsertInvoiceItem) (nextId : Nat) :
    List InvoiceItem × Nat :=
  match items with
  | [] => ([], nextId)
  | it :: rest =>
      let row : InvoiceItem :=
        { id := nextId, invoiceId := invoiceId, description := it.description,
          quantity := it.quantity, rate := it.rate, amount := it.amount }
      let tail := insertItemsLoop invoiceId rest (nextId + 1)
      (row :: tail.1, tail.2)

/-- DatabaseStorage.createInvoice: INSERT the invoice with status forced to
"sent" (overriding any caller-supplied status), then INSERT every item with
invoiceId set to the new invoice id.  Columns with a database default use
it when the insert record omits them. -/
def createInvoice (db : DB) (ii : InsertInvoice) (items : List InsertInvoiceItem)
    (now : Int) : Invoice × DB :=
  let inv : Invoice :=
    { id := db.nextInvoiceId, companyId := ii.companyId, number := ii.number,
      clientId := ii.clientId, status := "sent", subtotal := ii.subtotal,
      taxRate := ii.taxRate.getD 0, taxAmount := ii.taxAmount.getD 0,
      total := ii.total, dueDate := ii.dueDate, createdAt := now }
  let rows := insertItemsLoop inv.id items db.nextItemId
  (inv, { db with
            invoices := db.invoices ++ [inv],
            invoiceItems := db.invoiceItems ++ rows.1,
            nextInvoiceId := db.nextInvoiceId + 1,
            nextItemId := rows.2 })

/-- DatabaseStorage.updateInvoice: UPDATE ... WHERE id AND companyId
RETURNING first row or undefined. -/
def updateInvoice (db : DB) (id : Nat) (u : InvoiceUpdate) (companyId : Nat) :
    Option Invoice × DB :=
  match db.invoices.find? (fun i => i.id == id && i.companyId == companyId) with
  | none => (none, db)
  | some i =>
      (some (applyInvoiceUpdate u i),
       { db with invoices := db.invoices.map (fun x =>
           if x.id == id && x.companyId == companyId then applyInvoiceUpdate u x else x) })

/-- DatabaseStorage.deleteInvoice: verify ownership via getInvoice, then
DELETE the items, the payments, and finally the invoice row. -/
def deleteInvoice (db : DB) (id companyId : Nat) : Bool × DB :=
  match getInvoice db id companyId with
  | none => (false, db)
  | some _ =>
      let db1 : DB :=
        { db with invoiceItems := db.invoiceItems.filter (fun it => !(it.invoiceId == id)) }
      let db2 : DB :=
        { db1 with payments := db1.payments.filter (fun p => !(p.invoiceId == id)) }
      (db2.invoices.any (fun i => i.id == id && i.companyId == companyId),
       { db2 with invoices := db2.invoices.filter (fun i =>
           !(i.id == id && i.companyId == companyId)) })

/-- The invoice row a payment joins to (payments LEFT JOIN invoices ON
payments.invoiceId = invoices.id). -/
def invoiceOf (db : DB) (p : Payment) : Option Invoice :=
  db.invoices.find? (fun i => i.id == p.invoiceId)

/-- The joined WHERE clause eq(invoices.companyId, c): false when the LEFT
JOIN produced no invoice row. -/
def companyPaymentB (db : DB) (companyId : Nat) (p : Payment) : Bool :=
  match invoiceOf db p with
  | some i => i.companyId == companyId
  | none => false

/-- DatabaseStorage.getPayments: with an invoiceId the filter is
AND(payments.invoiceId = iid, invoices.companyId = c); without one (or with
the JS-falsy id 0) only the company filter applies. -/
def getPayments (db : DB) (companyId : Nat) (invoiceId : Option Nat) : List Payment :=
  match invoiceId with
  | some iid =>
      if iid ≠ 0 then
        db.payments.filter (fun p => p.invoiceId == iid && companyPaymentB db companyId p)
      else
        db.payments.filter (companyPaymentB db companyId)
  | none => db.payments.filter (companyPaymentB db companyId)

/-- DatabaseStorage.createPayment: INSERT the payment, re-read the invoice
by id alone, sum all of that invoice's payments, and set the invoice status
to "paid" when the sum reaches the total. -/
def createPayment (db : DB) (ip : InsertPayment) (now : Int) : Payment × DB :=
  let payment : Payment :=
    { id := db.nextPaymentId, invoiceId := ip.invoiceId, amount := ip.amount,
      paymentDate := now, notes := ip.notes }
  let db1 : DB :=
    { db with payments := db.payments ++ [payment],
              nextPaymentId := db.nextPaymentId + 1 }
  match db1.invoices.find? (fun i => i.id == payment.invoiceId) with
  | none => (payment, db1)
  | some invoice =>
      let invoicePayments := getPayments db1 invoice.companyId (some payment.invoiceId)
      let totalPaid := invoicePayments.foldl (fun s p => s + p.amount) 0
      if invoice.total ≤ totalPaid then
        (payment, (updateInvoice db1 payment.invoiceId { status := some "paid" }
            invoice.companyId).2)
      else
        (payment, db1)

/-- The default settings argument getSettings passes to updateSettings when
no row exists (hard-coded literals of DatabaseStorage.getSettings). -/
def getSettingsDefaults : SettingsUpdate :=
  { companyName := some "Your Company Name",
    email := some "contact@yourcompany.com",
    phone := some (some "+91 98765 43210"),
    address := some (some "123 Business Street, City, State, India"),
    currency := some "INR",
    defaultTaxRate := some 1800 }

mutual

/-- DatabaseStorage.getSettings with an explicit recursion budget: the
source method awaits updateSettings when no row exists, and updateSettings
in turn awaits getSettings, so the call graph is mutually recursive.  The
outer none models a computation that has not returned within the budget;
the inner option is the JS return value (Settings or undefined). -/
def getSettingsF : Nat → DB → Nat → Option (Option CompanySettings × DB)
  | 0, _, _ => none
  | fuel + 1, db, companyId =>
      match db.settingsRows.find? (fun s => s.companyId == companyId) with
      | some s => some (some s, db)
      | none =>
          match updateSettingsF fuel db getSettingsDefaults companyId with
          | none => none
          | some (s, db1) => some (some s, db1)

/-- DatabaseStorage.updateSettings with an explicit recursion budget: it
first awaits getSettings, then inserts a defaults-merged row when that
returned undefined, or updates the existing row otherwise. -/
def updateSettingsF : Nat → DB → SettingsUpdate → Nat → Option (CompanySettings × DB)
  | 0, _, _, _ => none
  | fuel + 1, db, u, companyId =>
      match getSettingsF fuel db companyId with
      | none => none
      | some (existing, db1) =>
          match existing with
          | none =>
              let row : CompanySettings :=
                { id := db1.nextSettingsId,
                  companyId := (u.companyId.getD companyId),
                  companyName := u.companyName.getD "Your Business Name",
                  email := u.email.getD "business@email.com",
                  phone := u.phone.getD none,
                  address := u.address.getD none,
                  currency := u.currency.getD "INR",
                  defaultTaxRate := u.defaultTaxRate.getD 1800,
                  logoUrl := u.logoUrl.getD none }
              some (row, { db1 with settingsRows := db1.settingsRows ++ [row],
                                    nextSettingsId := db1.nextSettingsId + 1 })
          | some es =>
              let upd := fun (s : CompanySettings) =>
                { s with
                  companyId := u.companyId.getD s.companyId,
                  companyName := u.companyName.getD s.companyName,
                  email := u.email.getD s.email,
                  phone := u.phone.getD s.phone,
                  address := u.address.getD s.address,
                  currency := u.currency.getD s.currency,
                  defaultTaxRate := u.defaultTaxRate.getD s.defaultTaxRate,
                  logoUrl := u.logoUrl.getD s.logoUrl }
              match db1.settingsRows.find? (fun s =>
                  s.id == es.id && s.companyId == companyId) with
              | none => none
              | some s0 =>
                  some (upd s0, { db1 with settingsRows := db1.settingsRows.map (fun s =>
                     if s.id == es.id && s.companyId == companyId then upd s else s) })

end

/-- Descending order on payment dates, the ORDER BY paymentDate DESC key. -/
def paymentDesc (p q : Payment) : Prop :=
  q.paymentDate ≤ p.paymentDate

instance : DecidableRel paymentDesc := fun p q =>
  inferInstanceAs (Decidable (q.paymentDate ≤ p.paymentDate))

instance : IsTotal Payment paymentDesc :=
  ⟨fun p q => le_total q.paymentDate p.paymentDate⟩

instance : IsTrans Payment paymentDesc :=
  ⟨fun _ _ _ h1 h2 => le_trans h2 h1⟩

/-- Shape of the object returned for each recent transaction
({...payment, client, invoiceNumber}). -/
structure RecentTransaction where
  payment : Payment
  client : Option Client
  invoiceNumber : String
deriving DecidableEq

/-- Result shape of DatabaseStorage.getDashboardStats. -/
structure DashboardStats where
  totalIncome : Int
  dueAmount : Int
  dueInvoicesCount : Nat
  recentTransactions : List RecentTransaction
deriving DecidableEq

/-- The row formatter of getDashboardStats: each payment joined with the
client of its invoice and the invoice number (empty string when the LEFT
JOIN found no invoice). -/
def formatTransaction (db : DB) (p : Payment) : RecentTransaction :=
  { payment := p,
    client := (invoiceOf db p).bind (fun i => db.clients.find? (fun cl => cl.id == i.clientId)),
    invoiceNumber := ((invoiceOf db p).map (fun i => i.number)).getD "" }

/-- The body of the due-amount loop of getDashboardStats: accumulate the
remaining amount and bump the counter when the remainder is positive. -/
def dueStep (db : DB) (acc : Int × Nat) (i : Invoice) : Int × Nat :=
  let invoicePayments := db.payments.filter (fun p => p.invoiceId == i.id)
  let totalPaid := invoicePayments.foldl (fun s p => s + p.amount) 0
  let remaining := i.total - totalPaid
  if 0 < remaining then (acc.1 + remaining, acc.2 + 1) else acc

/-- DatabaseStorage.getDashboardStats: total income over the company's
payments, the due loop over "sent" invoices, and the 10 most recent
payments ordered by paymentDate descending with joined fields. -/
def getDashboardStats (db : DB) (companyId : Nat) : DashboardStats :=
  let allPayments := db.payments.filter (companyPaymentB db companyId)
  let totalIncome := allPayments.foldl (fun s p => s + p.amount) 0
  let sentInvoices := db.invoices.filter (fun i =>
    i.status == "sent" && i.companyId == companyId)
  let due := sentInvoices.foldl (dueStep db) (0, 0)
  let recent := (List.insertionSort paymentDesc allPayments).take 10
  { totalIncome := totalIncome,
    dueAmount := due.1,
    dueInvoicesCount := due.2,
    recentTransactions := recent.map (formatTransaction db) }

/-- Model of the regex test number.match(/^INV-(\d+)$/) followed by
parseInt: some suffix value when the invoice number is INV- followed by one
or more ASCII digits, none otherwise. -/
def parseInvSuffix (s : String) : Option Nat :=
  let cs := s.toList
  if cs.take 4 = ['I', 'N', 'V', '-'] ∧ cs.drop 4 ≠ [] ∧
      (cs.drop 4).all (fun c => c.isDigit) then
    some ((cs.drop 4).foldl (fun n c => n * 10 + (c.toNat - 48)) 0)
  else
    none

/-- Model of String(n).padStart(3, '0'). -/
def padStart3 (s : String) : String :=
  if s.length < 3 then String.mk (List.replicate (3 - s.length) '0') ++ s else s

/-- DatabaseStorage.getNextInvoiceNumber: scan the company's invoice
numbers, keep the largest INV-digits suffix, add one, zero-pad to three
digits. -/
def getNextInvoiceNumber (db : DB) (companyId : Nat) : String :=
  let numbers := (db.invoices.filter (fun i => i.companyId == companyId)).map
    (fun i => i.number)
  let maxNumber := numbers.foldl (fun acc n =>
    match parseInvSuffix n with
    | some num => if acc < num then num else acc
    | none => acc) 0
  "INV-" ++ padStart3 (Nat.repr (maxNumber + 1))

/-- The POST /api/payments handler of src/server/routes.ts: after the auth
middleware establishes that the session carries some company id, the body
is parsed and handed to createPayment; the handler never compares the
session company with the invoice's owner.  Returns the HTTP status code and
the new store. -/
def postPaymentRoute (db : DB) (sessionCompanyId : Nat) (ip : InsertPayment)
    (now : Int) : Nat × DB :=
  let _ := sessionCompanyId
  let r := createPayment db ip now
  (201, r.2)

/-! Specification-side definitions: independent phrasings of the claims,
written from the spec's words, to be compared with the translated code. -/

/-- Sum of the amounts of a list of payments. -/
def sumAmounts (l : List Payment) : Int :=
  (l.map (fun p => p.amount)).sum

/-- The payments belonging to a company: those whose invoiceId is the id of
an invoice row of that company. -/
def specCompanyPayments (db : DB) (companyId : Nat) : List Payment :=
  db.payments.filter (fun p =>
    db.invoices.any (fun i => i.id == p.invoiceId && i.companyId == companyId))

/-- Sum of the amounts of the payments in a list that reference one
invoice id. -/
def sumFor (l : List Payment) (invoiceId : Nat) : Int :=
  sumAmounts (l.filter (fun p => p.invoiceId == invoiceId))

def specInvoicePaid (db : DB) (invoiceId : Nat) : Int :=
  sumFor db.payments invoiceId

/-- The company's due invoices: status "sent" with a positive remainder
(total minus the sum of that invoice's payments). -/
def specDueInvoices (db : DB) (companyId : Nat) : List Invoice :=
  db.invoices.filter (fun i =>
    i.status == "sent" && i.companyId == companyId &&
      decide (0 < i.total - specInvoicePaid db i.id))

/-- Due amount per the spec: the sum of the positive remainders of the
company's "sent" invoices. -/
def specDueAmount (db : DB) (companyId : Nat) : Int :=
  ((specDueInvoices db companyId).map (fun i => i.total - specInvoicePaid db i.id)).sum

/-- Status of the invoice with the given id, as stored. -/
def statusOf (db : DB) (invoiceId : Nat) : Option String :=
  (db.invoices.find? (fun i => i.id == invoiceId)).map (fun i => i.status)

/-- A sequence of POST /api/payments calls recording the given amounts
against one invoice, folded through createPayment. -/
def applyPaymentsOn (db : DB) (invoiceId : Nat) (amts : List Int) (now : Int) : DB :=
  amts.foldl (fun d a => (createPayment d { invoiceId := invoiceId, amount := a } now).2) db

/-- Modelled from the spec: the request schema of POST /api/invoices
(createInvoiceSchema, imported from shared/schema but absent from the
source snapshot).  Per the spec, monetary derivations (item amount, invoice
total = subtotal + tax) are computed by the caller and trusted by the
store, so the schema validates only the shape of the payload — which a
well-typed InsertInvoice already has — and imposes no cross-field
arithmetic constraint. -/
def createInvoiceSchemaAccepts (ii : InsertInvoice) : Bool :=
  let _ := ii
  true

/-- The maximum INV-digits suffix among the company's invoice numbers, as
the spec describes it: parse the conforming numbers and take the maximum
(0 when none conform). -/
def specMaxSuffix (db : DB) (companyId : Nat) : Nat :=
  ((((db.invoices.filter (fun i => i.companyId == companyId)).map
      (fun i => i.number)).filterMap parseInvSuffix)).foldr max 0

/-- The row rewrite performed by the paid-status update inside
createPayment: rows matching the invoice id and company get status "paid",
all others stay. -/
def setPaidRow (invoiceId companyId : Nat) (x : Invoice) : Invoice :=
  if x.id == invoiceId && x.companyId == companyId then
    { x with status := "paid" }
  else
    x

/-! Concrete stores used as evaluation inputs. -/

/-- An empty store. -/
def dbEmpty : DB := {}

def exClient : Client :=
  { id := 1, companyId := 1, name := "Acme", email := "acme@example.com" }

/-- A "sent" invoice of company 1 with total 100.00 (10000 hundredths) and
no tax. -/
def exInvoice100 : Invoice :=
  { id := 1, companyId := 1, number := "INV-001", clientId := 1, status := "sent",
    subtotal := 10000, taxRate := 0, taxAmount := 0, total := 10000,
    dueDate := 0, createdAt := 0 }

/-- Store holding company 1's client and its sent invoice of total 100. -/
def exDB : DB :=
  { clients := [exClient], invoices := [exInvoice100],
    nextClientId := 2, nextInvoiceId := 2 }

/-- A second "sent" invoice of company 1 with total 200.00. -/
def exInvoice200 : Invoice :=
  { id := 2, companyId := 1, number := "INV-002", clientId := 1, status := "sent",
    subtotal := 20000, taxRate := 0, taxAmount := 0, total := 20000,
    dueDate := 0, createdAt := 0 }

/-- Store with two sent invoices (totals 100 and 200) and one partial
payment of 50 on the second: the spec's due-amount example. -/
def exDB6 : DB :=
  { clients := [exClient], invoices := [exInvoice100, exInvoice200],
    payments := [{ id := 1, invoiceId := 2, amount := 5000, paymentDate := 0 }],
    nextClientId := 2, nextInvoiceId := 3, nextPaymentId := 2 }

/-- Store whose invoice 1 has three items and two payments: the spec's
cascade-delete example. -/
def exDB7 : DB :=
  { clients := [exClient], invoices := [exInvoice100],
    invoiceItems :=
      [{ id := 1, invoiceId := 1, description := "a", quantity := 1, rate := 10, amount := 10 },
       { id := 2, invoiceId := 1, description := "b", quantity := 1, rate := 20, amount := 20 },
       { id := 3, invoiceId := 1, description := "c", quantity := 1, rate := 30, amount := 30 }],
    payments :=
      [{ id := 1, invoiceId := 1, amount := 3000, paymentDate := 0 },
       { id := 2, invoiceId := 1, amount := 4000, paymentDate := 0 }],
    nextClientId := 2, nextInvoiceId := 2, nextItemId := 4, nextPaymentId := 3 }

/-- Store with one conforming invoice number INV-003 and one legacy number
that must not influence the numbering. -/
def exDB5 : DB :=
  { invoices :=
      [{ exInvoice100 with number := "INV-003" },
       { exInvoice100 with id := 2, number := "LEGACY-9999" }],
    nextInvoiceId := 3 }

/-- An insert record whose supplied total disagrees with
subtotal + taxAmount (5 versus 1 + 1). -/
def exBadInsert : InsertInvoice :=
  { companyId := 1, number := "INV-001", clientId := 1,
    subtotal := 1, taxAmount := some 1, total := 5, dueDate := 0 }

/-- An insert record whose supplied total equals subtotal + taxAmount, as
the official client computes it. -/
def exGoodInsert : InsertInvoice :=
  { companyId := 1, number := "INV-001", clientId := 1,
    subtotal := 100, total := 100, dueDate := 0 }

/-! Helper lemmas. -/

theorem foldl_add_amounts (l : List Payment) (a : Int) :
    l.foldl (fun s p => s + p.amount) a = a + sumAmounts l := by
  induction l generalizing a with
  | nil => simp [sumAmounts]
  | cons p t ih =>
      simp only [List.foldl_cons, ih, sumAmounts, List.map_cons, List.sum_cons]
      ring

theorem key_inj {α : Type} {f : α → Nat} {l : List α} (h : (l.map f).Nodup)
    {x y : α} (hx : x ∈ l) (hy : y ∈ l) (hf : f x = f y) : x = y :=
  List.inj_on_of_nodup_map h hx hy hf

theorem find?_key_found {α : Type} (f : α → Nat) :
    ∀ {l : List α}, (l.map f).Nodup → ∀ {a : α}, a ∈ l →
      l.find? (fun x => f x == f a) = some a := by
  intro l
  induction l with
  | nil => intro _ a ha; exact absurd ha (List.not_mem_nil a)
  | cons x t ih =>
      intro h a ha
      simp only [List.map_cons, List.nodup_cons] at h
      by_cases hfx : f x = f a
      · have hxa : x = a := by
          rcases List.mem_cons.mp ha with h1 | h2
          · exact h1.symm
          · exact absurd (hfx ▸ List.mem_map_of_mem f h2) h.1
        subst hxa
        simp [List.find?_cons]
      · have hat : a ∈ t := by
          rcases List.mem_cons.mp ha with h1 | h2
          · exact absurd (h1 ▸ rfl) hfx
          · exact h2
        rw [List.find?_cons]
        have : (f x == f a) = false := by simp [hfx]
        rw [this]
        exact ih h.2 hat

theorem find?_key_and_found {α : Type} (f : α → Nat) (q : α → Bool) :
    ∀ {l : List α}, (l.map f).Nodup → ∀ {a : α}, a ∈ l → q a = true →
      l.find? (fun x => f x == f a && q x) = some a := by
  intro l
  induction l with
  | nil => intro _ a ha; exact absurd ha (List.not_mem_nil a)
  | cons x t ih =>
      intro h a ha hq
      simp only [List.map_cons, List.nodup_cons] at h
      by_cases hfx : f x = f a
      · have hxa : x = a := by
          rcases List.mem_cons.mp ha with h1 | h2
          · exact h1.symm
          · exact absurd (hfx ▸ List.mem_map_of_mem f h2) h.1
        subst hxa
        simp [List.find?_cons, hq]
      · have hat : a ∈ t := by
          rcases List.mem_cons.mp ha with h1 | h2
          · exact absurd (h1 ▸ rfl) hfx
          · exact h2
        rw [List.find?_cons]
        have : (f x == f a && q x) = false := by simp [hfx]
        rw [this]
        exact ih h.2 hat hq

theorem find?_key_and_none {α : Type} (f : α → Nat) (q : α → Bool)
    {l : List α} (h : (l.map f).Nodup) {a : α} (ha : a ∈ l) (hq : q a = false) :
    l.find? (fun x => f x == f a && q x) = none := by
  apply List.find?_eq_none.mpr
  intro x hx hpx
  simp only [Bool.and_eq_true, beq_iff_eq] at hpx
  have hxa : x = a := key_inj h hx ha hpx.1
  rw [hxa, hq] at hpx
  exact Bool.false_ne_true hpx.2

theorem find?_map_of_key {α : Type} (f : α → Nat) (g : α → α)
    (hg : ∀ x, f (g x) = f x) (k : Nat) :
    ∀ l : List α,
      (l.map g).find? (fun x => f x == k) = (l.find? (fun x => f x == k)).map g := by
  intro l
  induction l with
  | nil => rfl
  | cons x t ih =>
      rw [List.map_cons, List.find?_cons, List.find?_cons]
      have hpred : (f (g x) == k) = (f x == k) := by rw [hg]
      rw [hpred]
      cases hxk : (f x == k) with
      | true => rfl
      | false => simpa using ih

theorem forall2_map_self {α : Type} (r : α → α → Prop) (g : α → α)
    (hg : ∀ x, r x (g x)) : ∀ l : List α, List.Forall₂ r l (l.map g) := by
  intro l
  induction l with
  | nil => exact List.Forall₂.nil
  | cons x t ih => exact List.Forall₂.cons (hg x) ih

theorem numbering_foldl_eq (l : List String) :
    ∀ acc : Nat,
      l.foldl (fun acc n =>
        match parseInvSuffix n with
        | some num => if acc < num then num else acc
        | none => acc) acc
      = (l.filterMap parseInvSuffix).foldl max acc := by
  induction l with
  | nil => intro acc; rfl
  | cons s t ih =>
      intro acc
      cases hs : parseInvSuffix s with
      | none => simp only [List.foldl_cons, List.filterMap_cons, hs, ih]
      | some num =>
          have hstep : (if acc < num then num else acc) = max acc num := by
            rcases Nat.lt_or_ge acc num with h | h
            · rw [if_pos h, Nat.max_eq_right (Nat.le_of_lt h)]
            · rw [if_neg (Nat.not_lt.mpr h), Nat.max_eq_left h]
          simp only [List.foldl_cons, List.filterMap_cons, hs, hstep, ih]

theorem foldl_max_eq (L : List Nat) : ∀ acc, L.foldl max acc = max acc (L.foldr max 0) := by
  induction L with
  | nil => intro acc; simp
  | cons m t ih =>
      intro acc
      simp only [List.foldl_cons, List.foldr_cons, ih, Nat.max_assoc]

/-- C5.  Invoice numbering: getNextInvoiceNumber scans the company's
invoice numbers, takes the maximum INV-digits suffix (non-conforming
numbers contribute nothing), adds one, and zero-pads to at least three
digits; with no conforming number present the result is INV-001. -/
theorem c5_next_invoice_number (db : DB) (companyId : Nat) :
    getNextInvoiceNumber db companyId =
      "INV-" ++ padStart3 (Nat.repr (specMaxSuffix db companyId + 1)) ∧
    (((db.invoices.filter (fun i => i.companyId == companyId)).map
        (fun i => i.number)).filterMap parseInvSuffix = [] →
      getNextInvoiceNumber db companyId = "INV-001") := by
  have h1 : getNextInvoiceNumber db companyId =
      "INV-" ++ padStart3 (Nat.repr (specMaxSuffix db companyId + 1)) := by
    simp only [getNextInvoiceNumber, specMaxSuffix]
    rw [numbering_foldl_eq, foldl_max_eq]
    simp
  refine ⟨h1, fun hnil => ?_⟩
  rw [h1]
  unfold specMaxSuffix
  rw [hnil]
  rfl

/-- C5 witness: in a store holding INV-003 and LEGACY-9999 the next number
is INV-004 and the legacy number is ignored. -/
theorem c5_next_invoice_number_witness :
    getNextInvoiceNumber exDB5 1 =
      "INV-" ++ padStart3 (Nat.repr (specMaxSuffix exDB5 1 + 1)) ∧
    getNextInvoiceNumber exDB5 1 = "INV-004" :=
  ⟨(c5_next_invoice_number exDB5 1).1, by decide⟩

theorem settings_mutual_none (companyId : Nat) :
    ∀ (fuel : Nat) (db : DB), (∀ s ∈ db.settingsRows, ¬ s.companyId = companyId) →
      getSettingsF fuel db companyId = none ∧
      ∀ u, updateSettingsF fuel db u companyId = none := by
  intro fuel
  induction fuel with
  | zero => intro db _; exact ⟨rfl, fun _ => rfl⟩
  | succ n ih =>
      intro db h
      have hfind : db.settingsRows.find? (fun s => s.companyId == companyId) = none := by
        apply List.find?_eq_none.mpr
        intro s hs
        simp [h s hs]
      constructor
      · show getSettingsF (n + 1) db companyId = none
        unfold getSettingsF
        rw [hfind, (ih db h).2 getSettingsDefaults]
      · intro u
        show updateSettingsF (n + 1) db u companyId = none
        unfold updateSettingsF
        rw [(ih db h).1]

/-- C4.  The lazy-default path of getSettings never terminates: when no
settings row exists for the company, getSettings awaits updateSettings,
whose first step awaits getSettings again, with no insert on the path, so
no recursion budget suffices for the call to return (and in particular no
default row is ever synthesized). -/
theorem c4_get_settings_diverges_when_absent :
    ∀ (fuel companyId : Nat), getSettingsF fuel dbEmpty companyId = none := by
  intro fuel companyId
  exact (settings_mutual_none companyId fuel dbEmpty (by simp [dbEmpty])).1

/-- C2.  The POST /api/payments handler accepts a payment from an identity
of company 2 against invoice 1, which company 1 owns: it answers 201, a
payment row is inserted, and company 1's invoice is even flipped to paid —
instead of the not-found failure with unchanged state that the
tenant-isolation contract demands. -/
theorem c2_cross_tenant_payment_accepted :
    (postPaymentRoute exDB 2 { invoiceId := 1, amount := 10000 } 0).1 = 201 ∧
    ((postPaymentRoute exDB 2 { invoiceId := 1, amount := 10000 } 0).2.payments.map
        (fun p => p.invoiceId)) = [1] ∧
    statusOf (postPaymentRoute exDB 2 { invoiceId := 1, amount := 10000 } 0).2 1
      = some "paid" := by
  refine ⟨rfl, by decide, by decide⟩

/-- C10.  createPayment only ever rewrites invoice statuses to "paid":
row by row, the resulting invoice list keeps each id, each status is either
unchanged or "paid", and a row already "paid" stays "paid". -/
theorem c10_payment_status_one_way (db : DB) (ip : InsertPayment) (now : Int) :
    List.Forall₂ (fun old new =>
        new.id = old.id ∧ (new.status = old.status ∨ new.status = "paid") ∧
        (old.status = "paid" → new.status = "paid"))
      db.invoices (createPayment db ip now).2.invoices := by
  have hrefl : ∀ l : List Invoice, List.Forall₂ (fun old new =>
      new.id = old.id ∧ (new.status = old.status ∨ new.status = "paid") ∧
      (old.status = "paid" → new.status = "paid")) l l :=
    fun l => List.forall₂_same.mpr (fun x _ => ⟨rfl, Or.inl rfl, fun h => h⟩)
  simp only [createPayment]
  split
  next => exact hrefl db.invoices
  next invoice heq =>
    split
    next =>
      simp only [updateInvoice]
      split
      next => exact hrefl db.invoices
      next inv2 heq2 =>
        dsimp only
        refine forall2_map_self _ _ ?_ db.invoices
        intro x
        by_cases hx : (x.id == ip.invoiceId && x.companyId == invoice.companyId) = true
        · rw [if_pos hx]
          exact ⟨rfl, Or.inr rfl, fun _ => rfl⟩
        · rw [if_neg hx]
          exact ⟨rfl, Or.inl rfl, fun h => h⟩
    next => exact hrefl db.invoices

/-- C10 witness: concrete application at a store holding a sent invoice. -/
theorem c10_payment_status_one_way_witness :
    List.Forall₂ (fun old new =>
        new.id = old.id ∧ (new.status = old.status ∨ new.status = "paid") ∧
        (old.status = "paid" → new.status = "paid"))
      exDB.invoices (createPayment exDB { invoiceId := 1, amount := 10000 } 0).2.invoices :=
  c10_payment_status_one_way exDB { invoiceId := 1, amount := 10000 } 0

theorem insertItemsLoop_items (invoiceId : Nat) :
    ∀ (items : List InsertInvoiceItem) (n : Nat),
      ((insertItemsLoop invoiceId items n).1.map (fun it => it.invoiceId) =
        List.replicate items.length invoiceId) ∧
      ((insertItemsLoop invoiceId items n).1.map
          (fun it => (it.description, it.quantity, it.rate, it.amount)) =
        items.map (fun it => (it.description, it.quantity, it.rate, it.amount))) := by
  intro items
  induction items with
  | nil => intro n; exact ⟨rfl, rfl⟩
  | cons it rest ih =>
      intro n
      simp only [insertItemsLoop, List.map_cons, List.length_cons, List.replicate_succ]
      exact ⟨by rw [(ih (n + 1)).1], by rw [(ih (n + 1)).2]⟩

/-- C8.  createInvoice stores the new invoice with status "sent" no matter
what status the caller supplied, appends exactly that row, and inserts one
item row per supplied item, each carrying the new invoice's id and the
supplied description, quantity, rate and amount. -/
theorem c8_create_invoice_forces_sent (db : DB) (ii : InsertInvoice)
    (items : List InsertInvoiceItem) (now : Int) :
    (createInvoice db ii items now).1.status = "sent" ∧
    (createInvoice db ii items now).2.invoices
      = db.invoices ++ [(createInvoice db ii items now).1] ∧
    ∃ newItems,
      (createInvoice db ii items now).2.invoiceItems = db.invoiceItems ++ newItems ∧
      newItems.map (fun it => it.invoiceId)
        = List.replicate items.length (createInvoice db ii items now).1.id ∧
      newItems.map (fun it => (it.description, it.quantity, it.rate, it.amount))
        = items.map (fun it => (it.description, it.quantity, it.rate, it.amount)) := by
  refine ⟨rfl, rfl, (insertItemsLoop db.nextInvoiceId items db.nextItemId).1, rfl, ?_, ?_⟩
  · exact (insertItemsLoop_items db.nextInvoiceId items db.nextItemId).1
  · exact (insertItemsLoop_items db.nextInvoiceId items db.nextItemId).2

/-- C8 witness: a caller-supplied "draft" status is overridden to "sent". -/
theorem c8_create_invoice_forces_sent_witness :
    (createInvoice exDB { exGoodInsert with status := some "draft" } [] 0).1.status
      = "sent" :=
  (c8_create_invoice_forces_sent exDB { exGoodInsert with status := some "draft" } [] 0).1

/-- C9 counterexample: an insert record accepted by the request schema
whose supplied total is 5 while subtotal + taxAmount is 2 is stored exactly
as supplied, so the stored invoice violates total = subtotal + taxAmount. -/
theorem c9_total_not_validated :
    createInvoiceSchemaAccepts exBadInsert = true ∧
    ¬ ((createInvoice dbEmpty exBadInsert [] 0).1.total
        = (createInvoice dbEmpty exBadInsert [] 0).1.subtotal
          + (createInvoice dbEmpty exBadInsert [] 0).1.taxAmount) :=
  ⟨rfl, by decide⟩

/-- C9 amended.  createInvoice stores subtotal, taxAmount and total exactly
as supplied (taxAmount defaulting to 0 when absent) and performs no
validation; hence the stored invoice satisfies total = subtotal + taxAmount
exactly when the caller-supplied fields already did. -/
theorem c9_total_equals_sum_when_supplied (db : DB) (ii : InsertInvoice)
    (items : List InsertInvoiceItem) (now : Int)
    (h : ii.total = ii.subtotal + ii.taxAmount.getD 0) :
    (createInvoice db ii items now).1.total
      = (createInvoice db ii items now).1.subtotal
        + (createInvoice db ii items now).1.taxAmount ∧
    (createInvoice db ii items now).1.subtotal = ii.subtotal ∧
    (createInvoice db ii items now).1.taxAmount = ii.taxAmount.getD 0 ∧
    (createInvoice db ii items now).1.total = ii.total :=
  ⟨h, rfl, rfl, rfl⟩

/-- C9 amended witness: an input whose supplied fields satisfy the equality
is stored still satisfying it. -/
theorem c9_total_equals_sum_witness :
    exGoodInsert.total = exGoodInsert.subtotal + exGoodInsert.taxAmount.getD 0 ∧
    (createInvoice dbEmpty exGoodInsert [] 0).1.total
      = (createInvoice dbEmpty exGoodInsert [] 0).1.subtotal
        + (createInvoice dbEmpty exGoodInsert [] 0).1.taxAmount :=
  ⟨by decide, (c9_total_equals_sum_when_supplied dbEmpty exGoodInsert [] 0 (by decide)).1⟩

/-- C1.  Tenant isolation for reads and row-addressed writes: in a
well-formed store, a client or invoice owned by company A, addressed by id
under company B with A different from B, yields undefined from getClient and
getInvoice, an undefined result and an unchanged store from updateClient and
updateInvoice, and false with an unchanged store from deleteClient and
deleteInvoice; and the listings getClients and getInvoices only ever return
rows of the requested company. -/
theorem c1_tenant_isolation (db : DB) (hwf : db.WF) (A B : Nat) (hAB : A ≠ B) :
    (∀ cl ∈ db.clients, cl.companyId = A →
      getClient db cl.id B = none ∧
      (∀ u, updateClient db cl.id u B = (none, db)) ∧
      deleteClient db cl.id B = (false, db)) ∧
    (∀ inv ∈ db.invoices, inv.companyId = A →
      getInvoice db inv.id B = none ∧
      (∀ u, updateInvoice db inv.id u B = (none, db)) ∧
      deleteInvoice db inv.id B = (false, db)) ∧
    (∀ C : Nat, ∀ r ∈ getClients db C, r.companyId = C) ∧
    (∀ C : Nat, ∀ r ∈ getInvoices db C, r.1.companyId = C) := by
  obtain ⟨hcl, hinv, _⟩ := hwf
  refine ⟨?_, ?_, ?_, ?_⟩
  · intro cl hmem hA
    have hqB : (fun c : Client => c.companyId == B) cl = false := by
      simp only [hA, beq_eq_false_iff_ne, ne_eq]
      exact hAB
    have hfind : db.clients.find? (fun c => c.id == cl.id && c.companyId == B) = none :=
      find?_key_and_none (fun c => c.id) (fun c => c.companyId == B) hcl hmem hqB
    refine ⟨hfind, fun u => by simp only [updateClient, hfind], ?_⟩
    have hnone := List.find?_eq_none.mp hfind
    have hany : db.clients.any (fun c => c.id == cl.id && c.companyId == B) = false := by
      rw [List.any_eq_false]
      exact hnone
    have hfilter : db.clients.filter
        (fun c => !(c.id == cl.id && c.companyId == B)) = db.clients := by
      rw [List.filter_eq_self]
      intro x hx
      have hx2 := hnone x hx
      by_cases hid : x.id = cl.id
      · simp only [hid, beq_self_eq_true, Bool.true_and] at hx2
        simp [hid, hx2]
      · simp [hid]
    simp only [deleteClient, hany, hfilter]
  · intro inv hmem hA
    have hqB : (fun i : Invoice => i.companyId == B) inv = false := by
      simp only [hA, beq_eq_false_iff_ne, ne_eq]
      exact hAB
    have hfind : db.invoices.find? (fun i => i.id == inv.id && i.companyId == B) = none :=
      find?_key_and_none (fun i => i.id) (fun i => i.companyId == B) hinv hmem hqB
    have hget : getInvoice db inv.id B = none := by
      simp only [getInvoice, hfind]
    exact ⟨hget, fun u => by simp only [updateInvoice, hfind],
      by simp only [deleteInvoice, hget]⟩
  · intro C r hr
    have := (List.mem_filter.mp hr).2
    simpa using this
  · intro C r hr
    obtain ⟨i, hi, hir⟩ := List.mem_map.mp hr
    have h2 := (List.mem_filter.mp hi).2
    rw [← hir]
    simpa using h2

/-- C1 witness: company 2 cannot read or delete company 1's client or
invoice, and listings for company 2 contain nothing. -/
theorem c1_tenant_isolation_witness :
    getClient exDB 1 2 = none ∧
    getInvoice exDB 1 2 = none ∧
    deleteClient exDB 1 2 = (false, exDB) ∧
    deleteInvoice exDB 1 2 = (false, exDB) := by
  have h := c1_tenant_isolation exDB (by decide) 1 2 (by decide)
  have h1 := h.1 exClient (by decide) rfl
  have h2 := h.2.1 exInvoice100 (by decide) rfl
  exact ⟨h1.1, h2.1, h1.2.2, h2.2.2⟩

/-- C7.  Cascade delete: for an invoice the company owns, deleteInvoice
removes every item row and payment row referencing the invoice and the
invoice row itself, returns true, and afterwards getInvoice is undefined,
getInvoiceItems is empty, and no payment references the invoice; for an id
the company does not own (or that does not exist) it returns false and
changes nothing. -/
theorem c7_cascade_delete (db : DB) (companyId : Nat) :
    (∀ inv ∈ db.invoices, inv.companyId = companyId →
      deleteInvoice db inv.id companyId =
        (true,
         { db with
             invoiceItems := db.invoiceItems.filter (fun it => !(it.invoiceId == inv.id)),
             payments := db.payments.filter (fun p => !(p.invoiceId == inv.id)),
             invoices := db.invoices.filter (fun i =>
               !(i.id == inv.id && i.companyId == companyId)) }) ∧
      getInvoice (deleteInvoice db inv.id companyId).2 inv.id companyId = none ∧
      getInvoiceItems (deleteInvoice db inv.id companyId).2 inv.id = [] ∧
      (deleteInvoice db inv.id companyId).2.payments.filter
        (fun p => p.invoiceId == inv.id) = []) ∧
    (∀ id : Nat, (∀ inv ∈ db.invoices, ¬(inv.id = id ∧ inv.companyId = companyId)) →
      deleteInvoice db id companyId = (false, db)) := by
  constructor
  · intro inv hmem hcid
    cases hfind : db.invoices.find? (fun i => i.id == inv.id && i.companyId == companyId) with
    | none =>
        exfalso
        exact List.find?_eq_none.mp hfind inv hmem (by simp [hcid])
    | some x =>
        have hstate : deleteInvoice db inv.id companyId =
            (true,
             { db with
                 invoiceItems := db.invoiceItems.filter (fun it => !(it.invoiceId == inv.id)),
                 payments := db.payments.filter (fun p => !(p.invoiceId == inv.id)),
                 invoices := db.invoices.filter (fun i =>
                   !(i.id == inv.id && i.companyId == companyId)) }) := by
          simp only [deleteInvoice, getInvoice, hfind]
          have hany : db.invoices.any
              (fun i => i.id == inv.id && i.companyId == companyId) = true := by
            rw [List.any_eq_true]
            exact ⟨inv, hmem, by simp [hcid]⟩
          rw [hany]
        refine ⟨hstate, ?_, ?_, ?_⟩
        · rw [hstate]
          simp only [getInvoice]
          have : (db.invoices.filter (fun i =>
              !(i.id == inv.id && i.companyId == companyId))).find?
                (fun i => i.id == inv.id && i.companyId == companyId) = none := by
            apply List.find?_eq_none.mpr
            intro y hy
            have := (List.mem_filter.mp hy).2
            simp only [Bool.not_eq_eq_eq_not, Bool.not_true] at this
            simp [this]
          rw [this]
        · rw [hstate]
          simp only [getInvoiceItems]
          apply List.filter_eq_nil_iff.mpr
          intro it hit
          have := (List.mem_filter.mp hit).2
          simpa using this
        · rw [hstate]
          apply List.filter_eq_nil_iff.mpr
          intro p hp
          have := (List.mem_filter.mp hp).2
          simpa using this
  · intro id hno
    have hfind : db.invoices.find? (fun i => i.id == id && i.companyId == companyId)
        = none := by
      apply List.find?_eq_none.mpr
      intro x hx hpx
      simp only [Bool.and_eq_true, beq_iff_eq] at hpx
      exact hno x hx hpx
    simp only [deleteInvoice, getInvoice, hfind]

theorem setPaidRow_id (invoiceId companyId : Nat) (x : Invoice) :
    (setPaidRow invoiceId companyId x).id = x.id := by
  unfold setPaidRow
  split <;> rfl

theorem sumFor_snoc (l : List Payment) (pm : Payment) (iid : Nat) (h : pm.invoiceId = iid) :
    sumFor (l ++ [pm]) iid = sumFor l iid + pm.amount := by
  simp [sumFor, sumAmounts, List.filter_append, h]

theorem sum_after_insert (l : List Payment) (pm : Payment) (iid : Nat)
    (h : pm.invoiceId = iid) :
    ((l ++ [pm]).filter (fun p => p.invoiceId == iid)).foldl (fun s p => s + p.amount) 0
      = sumFor l iid + pm.amount := by
  rw [foldl_add_amounts, zero_add]
  have hf : (l ++ [pm]).filter (fun p => p.invoiceId == iid)
      = l.filter (fun p => p.invoiceId == iid) ++ [pm] := by
    simp [List.filter_append, h]
  rw [hf]
  simp [sumAmounts, sumFor]

theorem companyPayment_self (db : DB) (hnd : (db.invoices.map (fun i => i.id)).Nodup)
    {inv : Invoice} (hmem : inv ∈ db.invoices) (p : Payment) :
    (p.invoiceId == inv.id && companyPaymentB db inv.companyId p)
      = (p.invoiceId == inv.id) := by
  cases hpid : (p.invoiceId == inv.id) with
  | false => simp
  | true =>
      have hpe : p.invoiceId = inv.id := by simpa using hpid
      simp only [Bool.true_and]
      unfold companyPaymentB invoiceOf
      rw [hpe, find?_key_found (fun i => i.id) hnd hmem]
      simp

theorem filter_payments_self (invs : List Invoice)
    (hnd : (invs.map (fun i => i.id)).Nodup) {inv : Invoice} (hmem : inv ∈ invs)
    (l : List Payment) (c : Nat) (hc : c = inv.companyId)
    (db1 : DB) (hdb : db1.invoices = invs) :
    l.filter (fun p => p.invoiceId == inv.id && companyPaymentB db1 c p)
      = l.filter (fun p => p.invoiceId == inv.id) := by
  subst hc
  subst hdb
  exact List.filter_congr (fun p _ => companyPayment_self db1 hnd hmem p)

theorem createPayment_characterization (db : DB) (ip : InsertPayment) (now : Int)
    (hwf : db.WF) {inv : Invoice} (hmem : inv ∈ db.invoices) (hid : ip.invoiceId = inv.id) :
    (createPayment db ip now).2.clients = db.clients ∧
    (createPayment db ip now).2.invoices =
      (if inv.total ≤ specInvoicePaid db inv.id + ip.amount
       then db.invoices.map (setPaidRow inv.id inv.companyId)
       else db.invoices) ∧
    (createPayment db ip now).2.payments =
      db.payments ++ [{ id := db.nextPaymentId, invoiceId := inv.id,
                        amount := ip.amount, paymentDate := now, notes := ip.notes }] := by
  obtain ⟨hclnd, hinvnd, hpos⟩ := hwf
  have hfind : db.invoices.find? (fun i => i.id == inv.id) = some inv :=
    find?_key_found (fun i => i.id) hinvnd hmem
  have hne : inv.id ≠ 0 := Nat.pos_iff_ne_zero.mp (hpos inv hmem)
  simp only [createPayment, hid, hfind, getPayments]
  rw [if_pos hne]
  set pm : Payment := { id := db.nextPaymentId, invoiceId := inv.id,
                        amount := ip.amount, paymentDate := now,
                        notes := ip.notes } with hpm
  set db1 : DB := { db with payments := db.payments ++ [pm],
                            nextPaymentId := db.nextPaymentId + 1 } with hdb1
  have hpmid : pm.invoiceId = inv.id := by rw [hpm]
  have hinv1 : db1.invoices = db.invoices := by rw [hdb1]
  rw [filter_payments_self db.invoices hinvnd hmem (db.payments ++ [pm])
    inv.companyId rfl db1 hinv1]
  rw [sum_after_insert db.payments pm inv.id hpmid]
  have hpa : pm.amount = ip.amount := by rw [hpm]
  rw [hpa]
  simp only [specInvoicePaid]
  by_cases hcond : inv.total ≤ sumFor db.payments inv.id + ip.amount
  · rw [if_pos hcond, if_pos hcond]
    have hfind2 : db1.invoices.find?
        (fun i => i.id == inv.id && i.companyId == inv.companyId) = some inv := by
      rw [hinv1]
      exact find?_key_and_found (fun i => i.id) (fun i => i.companyId == inv.companyId)
        hinvnd hmem (by simp)
    simp only [updateInvoice, hfind2]
    refine ⟨trivial, ?_, trivial⟩
    dsimp only
    rw [hinv1]
    rfl
  · rw [if_neg hcond, if_neg hcond]
    exact ⟨rfl, rfl, rfl⟩

theorem createPayment_step_all (db : DB) (ip : InsertPayment) (now : Int)
    (hwf : db.WF) {inv : Invoice} (hmem : inv ∈ db.invoices) (hid : ip.invoiceId = inv.id) :
    (createPayment db ip now).2.WF ∧
    (if inv.total ≤ specInvoicePaid db inv.id + ip.amount
     then { inv with status := "paid" } else inv) ∈ (createPayment db ip now).2.invoices ∧
    specInvoicePaid (createPayment db ip now).2 inv.id
      = specInvoicePaid db inv.id + ip.amount ∧
    statusOf (createPayment db ip now).2 inv.id =
      some (if inv.total ≤ specInvoicePaid db inv.id + ip.amount
            then "paid" else inv.status) := by
  obtain ⟨hc, hi, hp⟩ := createPayment_characterization db ip now hwf hmem hid
  obtain ⟨hclnd, hinvnd, hpos⟩ := hwf
  have hfind : db.invoices.find? (fun i => i.id == inv.id) = some inv :=
    find?_key_found (fun i => i.id) hinvnd hmem
  have hmapids : ∀ l : List Invoice,
      (l.map (setPaidRow inv.id inv.companyId)).map (fun i => i.id)
        = l.map (fun i => i.id) := by
    intro l
    rw [List.map_map]
    exact List.map_congr_left (fun x _ => setPaidRow_id inv.id inv.companyId x)
  refine ⟨⟨?_, ?_, ?_⟩, ?_, ?_, ?_⟩
  · rw [hc]; exact hclnd
  · rw [hi]
    by_cases hcond : inv.total ≤ specInvoicePaid db inv.id + ip.amount
    · rw [if_pos hcond, hmapids]; exact hinvnd
    · rw [if_neg hcond]; exact hinvnd
  · rw [hi]
    by_cases hcond : inv.total ≤ specInvoicePaid db inv.id + ip.amount
    · rw [if_pos hcond]
      intro i hi2
      obtain ⟨x, hx, rfl⟩ := List.mem_map.mp hi2
      rw [setPaidRow_id]
      exact hpos x hx
    · rw [if_neg hcond]; exact hpos
  · rw [hi]
    by_cases hcond : inv.total ≤ specInvoicePaid db inv.id + ip.amount
    · rw [if_pos hcond, if_pos hcond]
      have : setPaidRow inv.id inv.companyId inv = { inv with status := "paid" } := by
        unfold setPaidRow
        rw [if_pos (by simp)]
      rw [← this]
      exact List.mem_map_of_mem _ hmem
    · rw [if_neg hcond, if_neg hcond]; exact hmem
  · show sumFor (createPayment db ip now).2.payments inv.id = _
    rw [hp, sumFor_snoc _ _ _ rfl]
    rfl
  · rw [statusOf, hi]
    by_cases hcond : inv.total ≤ specInvoicePaid db inv.id + ip.amount
    · rw [if_pos hcond, if_pos hcond,
        find?_map_of_key (fun i => i.id) _ (setPaidRow_id inv.id inv.companyId) inv.id
          db.invoices,
        hfind]
      have : setPaidRow inv.id inv.companyId inv = { inv with status := "paid" } := by
        unfold setPaidRow
        rw [if_pos (by simp)]
      simp [this]
    · rw [if_neg hcond, if_neg hcond, hfind]
      rfl

theorem applyPayments_status_formula (now : Int) :
    ∀ (amts : List Int) (db : DB) (inv : Invoice), db.WF → inv ∈ db.invoices →
      (∀ a ∈ amts, 0 ≤ a) →
      statusOf (applyPaymentsOn db inv.id amts now) inv.id =
        some (match amts with
          | [] => inv.status
          | _ :: _ =>
              if inv.total ≤ specInvoicePaid db inv.id + amts.sum then "paid"
              else inv.status) := by
  intro amts
  induction amts with
  | nil =>
      intro db inv hwf hmem _
      show statusOf db inv.id = some inv.status
      rw [statusOf, find?_key_found (fun i => i.id) hwf.2.1 hmem]
      rfl
  | cons a rest ih =>
      intro db inv hwf hmem hnn
      have hstep := createPayment_step_all db { invoiceId := inv.id, amount := a } now
        hwf hmem rfl
      obtain ⟨hwf1, hmem1, hpaid1, _⟩ := hstep
      have happly : applyPaymentsOn db inv.id (a :: rest) now =
          applyPaymentsOn (createPayment db { invoiceId := inv.id, amount := a } now).2
            inv.id rest now := rfl
      set db1 := (createPayment db { invoiceId := inv.id, amount := a } now).2 with hdb1
      set inv1 := (if inv.total ≤ specInvoicePaid db inv.id + a
        then { inv with status := "paid" } else inv) with hinv1
      have hid1 : inv1.id = inv.id := by
        rw [hinv1]; split <;> rfl
      have htot1 : inv1.total = inv.total := by
        rw [hinv1]; split <;> rfl
      have ih1 := ih db1 inv1 hwf1 hmem1 (fun x hx => hnn x (List.mem_cons_of_mem a hx))
      rw [hid1] at ih1
      rw [happly, ih1]
      cases rest with
      | nil =>
          simp only [List.sum_cons, List.sum_nil, add_zero]
          rw [hinv1]
          by_cases hcond : inv.total ≤ specInvoicePaid db inv.id + a
          · rw [if_pos hcond, if_pos hcond]
          · rw [if_neg hcond, if_neg hcond]
      | cons b rest2 =>
          have hsum2 : specInvoicePaid db1 inv.id + (b :: rest2).sum
              = specInvoicePaid db inv.id + (a :: b :: rest2).sum := by
            rw [hpaid1]
            simp [List.sum_cons]
            ring
          rw [htot1, hsum2]
          by_cases hcond : inv.total ≤ specInvoicePaid db inv.id + (a :: b :: rest2).sum
          · rw [if_pos hcond, if_pos hcond]
          · rw [if_neg hcond, if_neg hcond]
            congr 1
            rw [hinv1]
            rw [if_neg]
            intro hc1
            apply hcond
            have hrest : 0 ≤ (b :: rest2).sum :=
              List.sum_nonneg (fun x hx => hnn x (List.mem_cons_of_mem a hx))
            have : specInvoicePaid db inv.id + a ≤
                specInvoicePaid db inv.id + (a :: b :: rest2).sum := by
              simp only [List.sum_cons] at hrest ⊢
              omega
            exact le_trans hc1 this

/-- C3.  Payment-driven status transition: after createPayment inserts a
payment, the full payment sum of the invoice is recomputed; the status
becomes "paid" exactly when that sum reaches the invoice's total and is
left unchanged otherwise; over any nonempty sequence of nonnegative
payments the final status depends only on the total sum, hence not on the
order of the payments. -/
theorem c3_payment_driven_status (db : DB) (inv : Invoice) (now : Int)
    (hwf : db.WF) (hmem : inv ∈ db.invoices) :
    (∀ (a : Int) (notes : Option String),
      statusOf (createPayment db { invoiceId := inv.id, amount := a, notes := notes }
          now).2 inv.id
        = some (if inv.total ≤ specInvoicePaid db inv.id + a then "paid"
                else inv.status)) ∧
    (∀ amts : List Int, (∀ a ∈ amts, 0 ≤ a) → amts ≠ [] →
      statusOf (applyPaymentsOn db inv.id amts now) inv.id
        = some (if inv.total ≤ specInvoicePaid db inv.id + amts.sum then "paid"
                else inv.status)) ∧
    (∀ amts1 amts2 : List Int, amts1.Perm amts2 → (∀ a ∈ amts1, 0 ≤ a) →
      statusOf (applyPaymentsOn db inv.id amts1 now) inv.id
        = statusOf (applyPaymentsOn db inv.id amts2 now) inv.id) := by
  refine ⟨?_, ?_, ?_⟩
  · intro a notes
    exact (createPayment_step_all db { invoiceId := inv.id, amount := a, notes := notes }
      now hwf hmem rfl).2.2.2
  · intro amts hnn hne
    have h := applyPayments_status_formula now amts db inv hwf hmem hnn
    cases amts with
    | nil => exact absurd rfl hne
    | cons a rest => exact h
  · intro amts1 amts2 hperm hnn
    have hnn2 : ∀ a ∈ amts2, 0 ≤ a := fun a ha => hnn a (hperm.symm.mem_iff.mp ha)
    have h1 := applyPayments_status_formula now amts1 db inv hwf hmem hnn
    have h2 := applyPayments_status_formula now amts2 db inv hwf hmem hnn2
    cases amts1 with
    | nil =>
        have h0 : amts2 = [] := hperm.symm.eq_nil
        subst h0
        rfl
    | cons a rest =>
        cases amts2 with
        | nil => exact absurd hperm.eq_nil (by simp)
        | cons b rest2 =>
            rw [h1, h2]
            simp only [hperm.sum_eq]

/-- C3 witness, realizing the spec's examples on an invoice of total 100.00
in status "sent": a single payment of 100.00 yields "paid"; payments of
40.00 and 60.00 in either order yield "paid"; a single payment of 60.00
leaves the status "sent". -/
theorem c3_payment_driven_status_witness :
    statusOf (applyPaymentsOn exDB 1 [10000] 0) 1 = some "paid" ∧
    statusOf (applyPaymentsOn exDB 1 [4000, 6000] 0) 1 = some "paid" ∧
    statusOf (applyPaymentsOn exDB 1 [6000, 4000] 0) 1 = some "paid" ∧
    statusOf (applyPaymentsOn exDB 1 [6000] 0) 1 = some "sent" := by
  have h := c3_payment_driven_status exDB exInvoice100 0 (by decide) (by decide)
  exact ⟨(h.2.1 [10000] (by decide) (by decide)).trans (by decide),
         (h.2.1 [4000, 6000] (by decide) (by decide)).trans (by decide),
         (h.2.1 [6000, 4000] (by decide) (by decide)).trans (by decide),
         (h.2.1 [6000] (by decide) (by decide)).trans (by decide)⟩

theorem companyPaymentB_eq_any (db : DB)
    (hnd : (db.invoices.map (fun i => i.id)).Nodup) (c : Nat) (p : Payment) :
    companyPaymentB db c p
      = db.invoices.any (fun i => i.id == p.invoiceId && i.companyId == c) := by
  unfold companyPaymentB invoiceOf
  cases hf : db.invoices.find? (fun i => i.id == p.invoiceId) with
  | none =>
      have hnone := List.find?_eq_none.mp hf
      symm
      rw [List.any_eq_false]
      intro x hx hpx
      simp only [Bool.and_eq_true, beq_iff_eq] at hpx
      exact hnone x hx (by simp [hpx.1])
  | some i0 =>
      have hp0 := List.find?_some hf
      have hmem0 : i0 ∈ db.invoices := List.mem_of_find?_eq_some hf
      cases hcc : (i0.companyId == c) with
      | true =>
          have hgoal : (db.invoices.any fun i => i.id == p.invoiceId && i.companyId == c)
              = true := by
            rw [List.any_eq_true]
            exact ⟨i0, hmem0, by simp [hp0, hcc]⟩
          exact hcc.trans hgoal.symm
      | false =>
          have hgoal : (db.invoices.any fun i => i.id == p.invoiceId && i.companyId == c)
              = false := by
            rw [List.any_eq_false]
            intro x hx hpx
            simp only [Bool.and_eq_true, beq_iff_eq] at hpx
            have hpe : i0.id = p.invoiceId := by simpa using hp0
            have hxi : x = i0 := key_inj hnd hx hmem0 (by rw [hpx.1, hpe])
            rw [hxi] at hpx
            simp [hpx.2] at hcc
          exact hcc.trans hgoal.symm

theorem filter_filter_comm {A : Type} (p q : A → Bool) (l : List A) :
    (l.filter p).filter q = l.filter (fun a => p a && q a) := by
  rw [List.filter_filter]
  exact List.filter_congr (fun x _ => Bool.and_comm (q x) (p x))

theorem due_foldl (db : DB) :
    ∀ (l : List Invoice) (acc : Int × Nat),
      l.foldl (dueStep db) acc
        = (acc.1 + ((l.filter (fun i => decide (0 < i.total - specInvoicePaid db i.id))).map
              (fun i => i.total - specInvoicePaid db i.id)).sum,
           acc.2 + (l.filter (fun i => decide (0 < i.total - specInvoicePaid db i.id))).length) := by
  intro l
  induction l with
  | nil => intro acc; simp
  | cons i t ih =>
      intro acc
      rw [List.foldl_cons]
      have hrem : (db.payments.filter (fun p => p.invoiceId == i.id)).foldl
          (fun s p => s + p.amount) 0 = specInvoicePaid db i.id := by
        rw [foldl_add_amounts, zero_add]
        rfl
      simp only [dueStep, hrem]
      by_cases hp : 0 < i.total - specInvoicePaid db i.id
      · rw [if_pos hp, ih, List.filter_cons_of_pos (by simpa using hp)]
        simp only [List.map_cons, List.sum_cons, List.length_cons, Prod.mk.injEq]
        constructor
        · ring
        · omega
      · rw [if_neg hp, ih, List.filter_cons_of_neg (by simpa using hp)]

/-- C6.  Dashboard aggregation: totalIncome is the sum of all payment
amounts over the company's invoices; dueAmount sums the positive remainders
(total minus that invoice's payment sum) of the company's "sent" invoices
and dueInvoicesCount counts them, so non-sent invoices contribute nothing;
recentTransactions is the first ten of the company's payments sorted by
paymentDate descending, joined with client and invoice number, hence
pairwise ordered and of length min 10 (number of company payments). -/
theorem c6_dashboard_stats (db : DB) (c : Nat) (hwf : db.WF) :
    (getDashboardStats db c).totalIncome = sumAmounts (specCompanyPayments db c) ∧
    (getDashboardStats db c).dueAmount = specDueAmount db c ∧
    (getDashboardStats db c).dueInvoicesCount = (specDueInvoices db c).length ∧
    (getDashboardStats db c).recentTransactions =
      ((List.insertionSort paymentDesc (specCompanyPayments db c)).take 10).map
        (formatTransaction db) ∧
    List.Pairwise (fun a b => b.payment.paymentDate ≤ a.payment.paymentDate)
      (getDashboardStats db c).recentTransactions ∧
    (getDashboardStats db c).recentTransactions.length
      = min 10 (specCompanyPayments db c).length ∧
    (∀ i ∈ db.invoices, ¬ i.status = "sent" → i ∉ specDueInvoices db c) := by
  obtain ⟨hclnd, hinvnd, hpos⟩ := hwf
  have hfilt : db.payments.filter (companyPaymentB db c) = specCompanyPayments db c :=
    List.filter_congr (fun p _ => companyPaymentB_eq_any db hinvnd c p)
  have h1 : (getDashboardStats db c).totalIncome = sumAmounts (specCompanyPayments db c) := by
    show (db.payments.filter (companyPaymentB db c)).foldl (fun s p => s + p.amount) 0 = _
    rw [hfilt, foldl_add_amounts, zero_add]
  have hsent : ((db.invoices.filter (fun i => i.status == "sent" && i.companyId == c)).filter
      (fun i => decide (0 < i.total - specInvoicePaid db i.id))) = specDueInvoices db c :=
    filter_filter_comm _ _ db.invoices
  have h2 : (getDashboardStats db c).dueAmount = specDueAmount db c := by
    show ((db.invoices.filter (fun i => i.status == "sent" && i.companyId == c)).foldl
      (dueStep db) (0, 0)).1 = _
    rw [due_foldl db _ (0, 0)]
    show 0 + _ = _
    rw [zero_add, hsent]
    rfl
  have h3 : (getDashboardStats db c).dueInvoicesCount = (specDueInvoices db c).length := by
    show ((db.invoices.filter (fun i => i.status == "sent" && i.companyId == c)).foldl
      (dueStep db) (0, 0)).2 = _
    rw [due_foldl db _ (0, 0)]
    show 0 + _ = _
    rw [Nat.zero_add, hsent]
  have h4 : (getDashboardStats db c).recentTransactions =
      ((List.insertionSort paymentDesc (specCompanyPayments db c)).take 10).map
        (formatTransaction db) := by
    show ((List.insertionSort paymentDesc
        (db.payments.filter (companyPaymentB db c))).take 10).map (formatTransaction db) = _
    rw [hfilt]
  have hsorted : List.Pairwise paymentDesc
      (List.insertionSort paymentDesc (specCompanyPayments db c)) :=
    List.sorted_insertionSort paymentDesc (specCompanyPayments db c)
  have htake : List.Pairwise paymentDesc
      ((List.insertionSort paymentDesc (specCompanyPayments db c)).take 10) :=
    hsorted.sublist (List.take_sublist 10 _)
  have h5 : List.Pairwise (fun a b => b.payment.paymentDate ≤ a.payment.paymentDate)
      (getDashboardStats db c).recentTransactions := by
    rw [h4]
    exact List.pairwise_map.mpr htake
  have h6 : (getDashboardStats db c).recentTransactions.length
      = min 10 (specCompanyPayments db c).length := by
    rw [h4, List.length_map, List.length_take,
      (List.perm_insertionSort paymentDesc (specCompanyPayments db c)).length_eq]
  refine ⟨h1, h2, h3, h4, h5, h6, ?_⟩
  intro i _ hns hmem
  have := (List.mem_filter.mp hmem).2
  simp only [Bool.and_eq_true, beq_iff_eq] at this
  exact hns this.1.1

/-- C6 witness, realizing the spec's example: two sent invoices of totals
100.00 and 200.00, a partial payment of 50.00 on the second: due amount
250.00, due count 2, total income 50.00. -/
theorem c6_dashboard_stats_witness :
    (getDashboardStats exDB6 1).dueAmount = specDueAmount exDB6 1 ∧
    (getDashboardStats exDB6 1).dueAmount = 25000 ∧
    (getDashboardStats exDB6 1).dueInvoicesCount = 2 ∧
    (getDashboardStats exDB6 1).totalIncome = 5000 :=
  ⟨(c6_dashboard_stats exDB6 1 (by decide)).2.1, by decide, by decide, by decide⟩

/-- C7 witness: deleting the invoice with three items and two payments
removes everything that references it, and a foreign id deletes nothing. -/
theorem c7_cascade_delete_witness :
    (deleteInvoice exDB7 1 1).1 = true ∧
    getInvoice (deleteInvoice exDB7 1 1).2 1 1 = none ∧
    getInvoiceItems (deleteInvoice exDB7 1 1).2 1 = [] ∧
    deleteInvoice exDB7 99 1 = (false, exDB7) := by
  have h := c7_cascade_delete exDB7 1
  have h1 := h.1 exInvoice100 (by decide) rfl
  exact ⟨congrArg Prod.fst h1.1, h1.2.1, h1.2.2.1, h.2 99 (by decide)⟩

end BillTracker
